import Mathlib

/-!
Verification of the rename orchestration controller
(`src/vs/editor/contrib/rename/browser/rename.ts`).

The file shallowly embeds the controller's data model and the control flow of
`RenameController.run` / `RenameController._prepareRename` as a pure function
from an environment of external-collaborator outcomes (word lookup, rename
input session, rename-resolution service, bulk-edit commit) to an observable
trace of events plus the settlement of the returned promise.
-/

namespace Rename

/-- Message severities of the message service (`vs/base/common/severity`). -/
inductive Severity where
  | Info
  | Warning
  | Error
deriving DecidableEq

/-- A JavaScript error value, as far as the controller discriminates it:
`typeof err === 'string'` picks out plain-string rejections (line 101), and
`isPromiseCanceledError` recognises the host's benign promise-cancellation
signal (line 116). All other errors are opaque, identified by a tag. -/
inductive JSError where
  | str (s : String)
  | canceled
  | other (id : Nat)
deriving DecidableEq

/-- Embeds `isPromiseCanceledError` from `vs/base/common/errors`: true exactly
on the host's promise-cancellation signal, false on strings and other errors. -/
def isPromiseCanceledError : JSError → Bool
  | JSError.canceled => true
  | _ => false

/-- An editor selection (1-based line/column coordinates, as in the source). -/
structure Selection where
  startLineNumber : Int
  startColumn : Int
  endLineNumber : Int
  endColumn : Int
deriving DecidableEq

/-- Embeds `Range.isEmpty`: start and end positions coincide. -/
def Selection.isEmpty (s : Selection) : Bool :=
  s.startLineNumber == s.endLineNumber && s.startColumn == s.endColumn

/-- A cursor position (`editor.getPosition()`). -/
structure Position where
  lineNumber : Int
  column : Int
deriving DecidableEq

/-- An `IRange` (lines 75-80 build one for the word). -/
structure IRange where
  startLineNumber : Int
  startColumn : Int
  endLineNumber : Int
  endColumn : Int
deriving DecidableEq

/-- The word under the cursor, as returned by
`model.getWordAtPosition(selection.getStartPosition())`: its text and its
1-based column bounds on the cursor's line. -/
structure Word where
  word : String
  startColumn : Int
  endColumn : Int
deriving DecidableEq

/-- One resource edit of the edit set computed by the rename-resolution
service. The controller never inspects an edit, so its contents are opaque. -/
structure IResourceEdit where
  id : Nat
deriving DecidableEq

/-- The rename-resolution service's result (`IRenameResult` from
`../common/rename`): an edit set plus an optional `rejectReason` string. -/
structure IRenameResult where
  currentName : String
  edits : List IResourceEdit
  rejectReason : Option String
deriving DecidableEq

/-- Embeds the truthiness test `if (result.rejectReason)` (line 137): the
field is present and non-empty (an empty string is falsy in JavaScript). -/
def IRenameResult.isRejected (r : IRenameResult) : Bool :=
  match r.rejectReason with
  | some s => s != ""
  | none => false

/-- Embeds lines 70-85 of `rename.ts`: the word-relative sub-range
`(selectionStart, selectionEnd)` pre-highlighted in the rename input. It
defaults to `[0, len(word))` and is narrowed only for a non-empty selection
confined to one line, by clamping the selection's columns to the word's. -/
def computeSubrange (selection : Selection) (w : Word) : Int × Int :=
  if !selection.isEmpty && (selection.startLineNumber == selection.endLineNumber) then
    (max 0 (selection.startColumn - w.startColumn),
      min w.endColumn selection.endColumn - w.startColumn)
  else
    (0, (w.word.length : Int))

/-- Embeds lines 75-80: the `IRange` spanning the whole word on the
selection's start line. -/
def wordRangeOf (selection : Selection) (w : Word) : IRange :=
  ⟨selection.startLineNumber, w.startColumn, selection.startLineNumber, w.endColumn⟩

/-- The observable actions `run` can perform, in program order: context-key
updates, showing the input field, focusing the editor, opening the bulk-edit
transaction, invoking the rename service, adding edits, committing, setting
the editor selection, showing a message, and starting the progress guard. -/
inductive Event where
  | setVisible (b : Bool)
  | showInput (range : IRange) (text : String) (selectionStart selectionEnd : Int)
  | focusEditor
  | createBulkEdit
  | callRename (modelId : Nat) (position : Position) (newName : String)
  | addEdits (edits : List IResourceEdit)
  | callFinish
  | setSelection (sel : Selection)
  | showMessage (sev : Severity) (message : String)
  | showProgress
deriving DecidableEq

/-- How the promise returned by `run()` settles. `noop` is the bare
`return;` taken when no word is under the cursor (no promise at all). -/
inductive RunResult where
  | noop
  | resolved
  | rejected (e : JSError)
deriving DecidableEq

/-- The observable outcome of one `run()` invocation. -/
structure Output where
  events : List Event
  result : RunResult
deriving DecidableEq

/-- The environment of one invocation: the editor state read by the
controller, plus the outcome each external asynchronous collaborator would
deliver if consulted. `Sum.inl` is a resolved promise, `Sum.inr` a rejected
one. The editor state is constant across the invocation (the execution model
is single-threaded; concurrent document edits are visible only to the
bulk-edit transaction's conflict detection, i.e. through `finishOutcome`). -/
structure Env where
  selection : Selection
  modelId : Nat
  position : Position
  wordAtPosition : Option Word
  inputOutcome : Sum String JSError
  renameOutcome : Sum IRenameResult JSError
  finishOutcome : Sum (Option Selection) JSError
deriving DecidableEq

/-- The generic failure message (`nls.localize('rename.failed', ...)`). -/
def renameFailedMessage : String := "Sorry, rename failed to execute."

/-- Embeds the error handler at lines 100-107: a string error (a rename
rejection reason) is shown at Info severity and absorbed; any other error is
shown as the generic failure at Error severity and re-raised. -/
def handleRenameError : JSError → List Event × RunResult
  | JSError.str s => ([Event.showMessage Severity.Info s], RunResult.resolved)
  | e => ([Event.showMessage Severity.Error renameFailedMessage], RunResult.rejected e)

/-- Embeds lines 94-98 plus promise plumbing: `edit.finish()` is called; on
success a non-null resulting selection is applied to the editor; on failure
the rejection propagates raw — the handler at lines 100-107 is attached to
the `_prepareRename` promise only, so it cannot catch a `finish()` failure. -/
def finishStep (env : Env) : List Event × RunResult :=
  match env.finishOutcome with
  | Sum.inl (some sel) => ([Event.callFinish, Event.setSelection sel], RunResult.resolved)
  | Sum.inl none => ([Event.callFinish], RunResult.resolved)
  | Sum.inr e => ([Event.callFinish], RunResult.rejected e)

/-- Embeds the continuation of `rename(...)` inside `_prepareRename`
(lines 136-142) together with the outer `then` (lines 92-107): a service
rejection goes to the error handler; a truthy `rejectReason` becomes a
string rejection (`TPromise.wrapError(result.rejectReason)`) also handled
there; otherwise the edits are added and the transaction committed. -/
def resolveStep (env : Env) : List Event × RunResult :=
  match env.renameOutcome with
  | Sum.inr e => handleRenameError e
  | Sum.inl result =>
    if result.isRejected then
      handleRenameError (JSError.str (result.rejectReason.getD ""))
    else
      let rest := finishStep env
      (Event.addEdits result.edits :: rest.1, rest.2)

/-- Lines 87-88: the visibility context key is set, then the input session is
shown at the word's range with the word pre-filled and the sub-range
pre-highlighted. -/
def showPhase (env : Env) (w : Word) : List Event :=
  let sr := computeSubrange env.selection w
  [Event.setVisible true,
    Event.showInput (wordRangeOf env.selection w) w.word sr.1 sr.2]

/-- Embeds `RenameController.run` (lines 61-120). No word: bare `return;`.
Input session errored: reset the flag, refocus, swallow a cancellation signal
or re-raise anything else (lines 112-119). Input accepted: reset the flag,
refocus, open the bulk edit, invoke the rename service with the editor's
model, position and the new name (lines 88-110, 130-143), start the progress
guard, and continue with `resolveStep`. -/
def run (env : Env) : Output :=
  match env.wordAtPosition with
  | none => ⟨[], RunResult.noop⟩
  | some w =>
    match env.inputOutcome with
    | Sum.inr e =>
      let evs := showPhase env w ++ [Event.setVisible false, Event.focusEditor]
      if isPromiseCanceledError e then ⟨evs, RunResult.resolved⟩
      else ⟨evs, RunResult.rejected e⟩
    | Sum.inl newName =>
      let rest := resolveStep env
      ⟨showPhase env w ++
        [Event.setVisible false, Event.focusEditor, Event.createBulkEdit,
          Event.callRename env.modelId env.position newName, Event.showProgress] ++
        rest.1,
        rest.2⟩

/-- The messages shown through the message service, in order. -/
def messagesShown (evs : List Event) : List (Severity × String) :=
  evs.filterMap fun e =>
    match e with
    | Event.showMessage sev m => some (sev, m)
    | _ => none

/-- The selections applied to the editor after commit, in order. -/
def selectionsSet (evs : List Event) : List Selection :=
  evs.filterMap fun e =>
    match e with
    | Event.setSelection s => some s
    | _ => none

/-- How many times `edit.finish()` was called. -/
def finishCalls (evs : List Event) : Nat :=
  (evs.filter fun e =>
    match e with
    | Event.callFinish => true
    | _ => false).length

/-- The edit sets added to the transaction, in order. -/
def addEditsCalls (evs : List Event) : List (List IResourceEdit) :=
  evs.filterMap fun e =>
    match e with
    | Event.addEdits es => some es
    | _ => none

/-- Whether an event is an update of the visibility context key. -/
def isSetVisible : Event → Bool
  | Event.setVisible _ => true
  | _ => false

/-- Whether an event shows the rename input session. -/
def isShowInput : Event → Bool
  | Event.showInput _ _ _ _ => true
  | _ => false

/-- How many times the input session was shown. -/
def showInputCount : List Event → Nat
  | [] => 0
  | e :: rest => (if isShowInput e then 1 else 0) + showInputCount rest

/-- The events that occur while the visibility flag is `true`, threading the
flag through the trace (`b` is the flag's value before the first event). -/
def eventsWhileVisible : List Event → Bool → List Event
  | [], _ => []
  | Event.setVisible b :: rest, _ => eventsWhileVisible rest b
  | e :: rest, true => e :: eventsWhileVisible rest true
  | _ :: rest, false => eventsWhileVisible rest false

/-- The visibility flag's value after the whole trace ran (`b` its value
before the first event). -/
def finalVisible : List Event → Bool → Bool
  | [], b => b
  | Event.setVisible v :: rest, _ => finalVisible rest v
  | _ :: rest, b => finalVisible rest b

/-- Whether an event belongs to the in-flight rename pipeline: opening the
transaction, invoking the service, adding edits, or committing. -/
def isPipelineEvent : Event → Bool
  | Event.createBulkEdit => true
  | Event.callRename _ _ _ => true
  | Event.addEdits _ => true
  | Event.callFinish => true
  | _ => false

/-- The context-key expression `CONTEXT_RENAME_INPUT_VISIBLE` (line 28),
evaluated on the current value of the visibility flag. -/
def CONTEXT_RENAME_INPUT_VISIBLE : Bool → Bool := fun visible => visible

/-- A registered editor command: its id and its precondition as a function of
the visibility flag. -/
structure EditorCommandSpec where
  id : String
  precondition : Bool → Bool

/-- The `acceptRenameInput` command (lines 177-186), gated on the flag. -/
def acceptRenameInputCommand : EditorCommandSpec :=
  ⟨"acceptRenameInput", CONTEXT_RENAME_INPUT_VISIBLE⟩

/-- The `cancelRenameInput` command (lines 188-198), gated on the flag. -/
def cancelRenameInputCommand : EditorCommandSpec :=
  ⟨"cancelRenameInput", CONTEXT_RENAME_INPUT_VISIBLE⟩

/-- Environment for the C1 counterexample and witness: the input session is
accepted with "bar", the service returns one edit and no reject reason, and
the commit fails with a (non-string, non-cancellation) conflict error. -/
def envC1 : Env :=
  ⟨⟨1, 6, 1, 6⟩, 1, ⟨1, 6⟩, some ⟨"foo", 5, 8⟩, Sum.inl "bar",
    Sum.inl ⟨"foo", [⟨0⟩], none⟩, Sum.inr (JSError.other 7)⟩

/-- Environment for the C2 witness: the service rejects with a reason. -/
def envC2 : Env :=
  ⟨⟨1, 6, 1, 6⟩, 1, ⟨1, 6⟩, some ⟨"foo", 5, 8⟩, Sum.inl "bar",
    Sum.inl ⟨"foo", [], some "no other references found"⟩, Sum.inl none⟩

/-- Environment for the C3 witness: a full successful rename. -/
def envC3 : Env :=
  ⟨⟨1, 6, 1, 6⟩, 1, ⟨1, 6⟩, some ⟨"foo", 5, 8⟩, Sum.inl "bar",
    Sum.inl ⟨"foo", [⟨0⟩], none⟩, Sum.inl (some ⟨2, 1, 2, 4⟩)⟩

/-- Environment for the C5 witness: whitespace under the cursor. -/
def envC5 : Env :=
  ⟨⟨1, 1, 1, 1⟩, 0, ⟨1, 1⟩, none, Sum.inl "x", Sum.inl ⟨"x", [], none⟩, Sum.inl none⟩

/-- Environment for the C6 witness: an accepted rename. -/
def envC6 : Env :=
  ⟨⟨2, 3, 2, 3⟩, 4, ⟨2, 3⟩, some ⟨"qux", 2, 5⟩, Sum.inl "baz",
    Sum.inl ⟨"qux", [⟨1⟩], none⟩, Sum.inl none⟩

/-- Environment for the C7 witness: the input session delivers the host's
promise-cancellation signal. -/
def envC7 : Env :=
  ⟨⟨1, 6, 1, 6⟩, 1, ⟨1, 6⟩, some ⟨"foo", 5, 8⟩, Sum.inr JSError.canceled,
    Sum.inl ⟨"foo", [], none⟩, Sum.inl none⟩

/-- Environment for the C8 witness: resolution returns edits and the commit
succeeds with a resulting selection. -/
def envC8 : Env :=
  ⟨⟨1, 6, 1, 6⟩, 1, ⟨1, 6⟩, some ⟨"foo", 5, 8⟩, Sum.inl "bar",
    Sum.inl ⟨"foo", [⟨0⟩, ⟨1⟩], none⟩, Sum.inl (some ⟨3, 2, 3, 5⟩)⟩

/-- Environment for the C10 witness: an accepted rename. -/
def envC10 : Env :=
  ⟨⟨1, 6, 1, 6⟩, 1, ⟨1, 6⟩, some ⟨"foo", 5, 8⟩, Sum.inl "bar",
    Sum.inl ⟨"foo", [⟨0⟩], none⟩, Sum.inl none⟩

/-- A trace containing no visibility-flag update collects nothing while the
flag starts out false. -/
theorem eventsWhileVisible_eq_nil (l : List Event)
    (h : ∀ e ∈ l, isSetVisible e = false) : eventsWhileVisible l false = [] := by
  induction l with
  | nil => rfl
  | cons e rest ih =>
    have he : isSetVisible e = false := h e (List.mem_cons_self e rest)
    have hrest : ∀ x ∈ rest, isSetVisible x = false :=
      fun x hx => h x (List.mem_cons_of_mem e hx)
    cases e
    case setVisible b => simp [isSetVisible] at he
    all_goals exact ih hrest

/-- A trace containing no visibility-flag update leaves the flag unchanged. -/
theorem finalVisible_of_no_setVisible (l : List Event)
    (h : ∀ e ∈ l, isSetVisible e = false) : ∀ b, finalVisible l b = b := by
  induction l with
  | nil => intro b; rfl
  | cons e rest ih =>
    intro b
    have he : isSetVisible e = false := h e (List.mem_cons_self e rest)
    have hrest : ∀ x ∈ rest, isSetVisible x = false :=
      fun x hx => h x (List.mem_cons_of_mem e hx)
    cases e
    case setVisible v => simp [isSetVisible] at he
    all_goals exact ih hrest b

/-- A trace never showing the input session has a zero show count. -/
theorem showInputCount_eq_zero (l : List Event)
    (h : ∀ e ∈ l, isShowInput e = false) : showInputCount l = 0 := by
  induction l with
  | nil => rfl
  | cons e rest ih =>
    have he : isShowInput e = false := h e (List.mem_cons_self e rest)
    have hrest : ∀ x ∈ rest, isShowInput x = false :=
      fun x hx => h x (List.mem_cons_of_mem e hx)
    simp [showInputCount, he, ih hrest]

/-- The continuation after the rename service is consulted touches neither
the visibility flag nor the input session: it only shows messages, adds
edits, commits, and applies selections. -/
theorem resolveStep_events_plain (env : Env) :
    ∀ e ∈ (resolveStep env).1, isSetVisible e = false ∧ isShowInput e = false := by
  unfold resolveStep
  cases env.renameOutcome with
  | inr err => cases err <;> simp [handleRenameError, isSetVisible, isShowInput]
  | inl result =>
    cases hrej : result.isRejected with
    | true => simp [hrej, handleRenameError, isSetVisible, isShowInput]
    | false =>
      unfold finishStep
      cases env.finishOutcome with
      | inl o => cases o <;> simp [hrej, isSetVisible, isShowInput]
      | inr e2 => simp [hrej, isSetVisible, isShowInput]

/-- On the input-session error path the trace is exactly: flag set, session
shown, flag reset, editor refocused. -/
theorem run_events_input_error (env : Env) (w : Word) (e : JSError)
    (hw : env.wordAtPosition = some w) (hi : env.inputOutcome = Sum.inr e) :
    (run env).events = showPhase env w ++ [Event.setVisible false, Event.focusEditor] := by
  cases he : isPromiseCanceledError e <;> simp [run, hw, hi, he]

/-- On the accepted path the trace is the show phase, then flag reset, focus,
transaction opening, service call and progress guard, then the resolution
continuation; the promise settles as the continuation dictates. -/
theorem run_accepted (env : Env) (w : Word) (newName : String)
    (hw : env.wordAtPosition = some w) (hi : env.inputOutcome = Sum.inl newName) :
    (run env).events = showPhase env w ++
      Event.setVisible false :: Event.focusEditor :: Event.createBulkEdit ::
      Event.callRename env.modelId env.position newName :: Event.showProgress ::
      (resolveStep env).1 ∧
    (run env).result = (resolveStep env).2 := by
  simp [run, hw, hi]

/-- For every trace of the shape produced by `run` after a word was found —
show phase, then flag reset and refocus, then any continuation that never
touches the flag — the only event that happens while the flag is `true` is
showing the input session. -/
theorem eventsWhileVisible_run_shape (env : Env) (w : Word) (l : List Event)
    (h : ∀ e ∈ l, isSetVisible e = false) :
    eventsWhileVisible
      (showPhase env w ++ Event.setVisible false :: Event.focusEditor :: l) false =
      [Event.showInput (wordRangeOf env.selection w) w.word
        (computeSubrange env.selection w).1 (computeSubrange env.selection w).2] := by
  simp [showPhase, eventsWhileVisible, eventsWhileVisible_eq_nil l h]

/-- For every trace of that same shape the flag ends up `false`. -/
theorem finalVisible_run_shape (env : Env) (w : Word) (l : List Event)
    (h : ∀ e ∈ l, isSetVisible e = false) :
    finalVisible
      (showPhase env w ++ Event.setVisible false :: Event.focusEditor :: l) false = false := by
  simp [showPhase, finalVisible, finalVisible_of_no_setVisible l h]

/-- For every trace of that same shape, if the continuation never shows the
input session, the session was shown exactly once. -/
theorem showInputCount_run_shape (env : Env) (w : Word) (l : List Event)
    (h : ∀ e ∈ l, isShowInput e = false) :
    showInputCount
      (showPhase env w ++ Event.setVisible false :: Event.focusEditor :: l) = 1 := by
  simp [showPhase, showInputCount, isShowInput, showInputCount_eq_zero l h]

/-- Claim C4: for a non-empty single-line selection whose start lies within
the word (and with a well-formed word, whose column span equals its text
length, as the data model guarantees for `getWordAtPosition` results), the
computed sub-range satisfies `0 ≤ selectionStart ≤ selectionEnd ≤ len(word)`;
for an empty or multi-line selection it is exactly `[0, len(word))`. -/
theorem c4_subrange_bounds (sel : Selection) (w : Word)
    (hlen : w.endColumn = w.startColumn + (w.word.length : Int)) :
    (sel.isEmpty = false → sel.startLineNumber = sel.endLineNumber →
      w.startColumn ≤ sel.startColumn → sel.startColumn ≤ w.endColumn →
      sel.startColumn ≤ sel.endColumn →
      0 ≤ (computeSubrange sel w).1 ∧
      (computeSubrange sel w).1 ≤ (computeSubrange sel w).2 ∧
      (computeSubrange sel w).2 ≤ (w.word.length : Int)) ∧
    ((sel.isEmpty = true ∨ sel.startLineNumber ≠ sel.endLineNumber) →
      computeSubrange sel w = (0, (w.word.length : Int))) := by
  constructor
  · intro hne hline h1 h2 h3
    simp only [computeSubrange, hne, Bool.not_false, beq_iff_eq, hline, Bool.true_and, if_true]
    refine ⟨?_, ?_, ?_⟩ <;> omega
  · rintro (h | h)
    · simp [computeSubrange, h]
    · simp [computeSubrange, h]

/-- Witness for C4 at the word "fooBar" on columns 1-7 with the single-line
selection spanning columns 4-6. -/
theorem c4_subrange_bounds_witness :
    0 ≤ (computeSubrange ⟨1, 4, 1, 6⟩ ⟨"fooBar", 1, 7⟩).1 ∧
    (computeSubrange ⟨1, 4, 1, 6⟩ ⟨"fooBar", 1, 7⟩).1 ≤
      (computeSubrange ⟨1, 4, 1, 6⟩ ⟨"fooBar", 1, 7⟩).2 ∧
    (computeSubrange ⟨1, 4, 1, 6⟩ ⟨"fooBar", 1, 7⟩).2 ≤
      ((Word.mk "fooBar" 1 7).word.length : Int) :=
  (c4_subrange_bounds ⟨1, 4, 1, 6⟩ ⟨"fooBar", 1, 7⟩ (by decide)).1
    (by decide) (by decide) (by decide) (by decide) (by decide)

/-- Claim C9: the two concrete sub-range scenarios. The word "foo" on columns
5-8 with the selection collapsed at column 5 yields `[0,3)`; the word
"fooBar" on columns 1-7 with the selection spanning columns 4-6 yields
`[3,5)`. -/
theorem c9_subrange_scenarios :
    computeSubrange ⟨1, 5, 1, 5⟩ ⟨"foo", 5, 8⟩ = ((0 : Int), (3 : Int)) ∧
    computeSubrange ⟨1, 4, 1, 6⟩ ⟨"fooBar", 1, 7⟩ = ((3 : Int), (5 : Int)) := by
  decide

/-- Claim C5: when no word is under the cursor, `run` performs no observable
action at all — no input session, no visibility-flag update, no message —
and returns silently without an error. -/
theorem c5_no_word_silent_noop (env : Env) (hw : env.wordAtPosition = none) :
    (run env).events = [] ∧ (run env).result = RunResult.noop ∧
    ∀ e : JSError, (run env).result ≠ RunResult.rejected e := by
  simp [run, hw]

/-- Witness for C5 at a concrete environment with no word under the cursor. -/
theorem c5_no_word_silent_noop_witness :
    (run envC5).events = [] ∧ (run envC5).result = RunResult.noop ∧
    ∀ e : JSError, (run envC5).result ≠ RunResult.rejected e :=
  c5_no_word_silent_noop envC5 rfl

/-- The part of an accepted-path trace that follows the flag reset and
refocus — transaction opening, service call, progress guard and the
resolution continuation — neither updates the flag nor shows the session. -/
theorem accepted_tail_plain (env : Env) (name : String) :
    ∀ e ∈ (Event.createBulkEdit ::
      Event.callRename env.modelId env.position name ::
      Event.showProgress :: (resolveStep env).1),
      isSetVisible e = false ∧ isShowInput e = false := by
  intro e he
  simp only [List.mem_cons] at he
  rcases he with rfl | rfl | rfl | he
  · exact ⟨rfl, rfl⟩
  · exact ⟨rfl, rfl⟩
  · exact ⟨rfl, rfl⟩
  · exact resolveStep_events_plain env e he

/-- Claim C3: the visibility flag is raised exactly around the input session.
On every path of `run` with a word under the cursor, the single showing of
the session is the only event that occurs while the flag is `true`, and the
flag is `false` once the trace has run — accept, cancel and error paths
alike. -/
theorem c3_visibility_flag_lifecycle (env : Env) (w : Word)
    (hw : env.wordAtPosition = some w) :
    eventsWhileVisible (run env).events false =
      [Event.showInput (wordRangeOf env.selection w) w.word
        (computeSubrange env.selection w).1 (computeSubrange env.selection w).2] ∧
    finalVisible (run env).events false = false ∧
    showInputCount (run env).events = 1 := by
  cases hi : env.inputOutcome with
  | inr e =>
    rw [run_events_input_error env w e hw hi]
    exact ⟨eventsWhileVisible_run_shape env w [] (by simp),
      finalVisible_run_shape env w [] (by simp),
      showInputCount_run_shape env w [] (by simp)⟩
  | inl name =>
    rw [(run_accepted env w name hw hi).1]
    have hpl := accepted_tail_plain env name
    exact ⟨eventsWhileVisible_run_shape env w _ (fun e he => (hpl e he).1),
      finalVisible_run_shape env w _ (fun e he => (hpl e he).1),
      showInputCount_run_shape env w _ (fun e he => (hpl e he).2)⟩

/-- Witness for C3 at a concrete successful rename. -/
theorem c3_visibility_flag_lifecycle_witness :
    eventsWhileVisible (run envC3).events false =
      [Event.showInput (wordRangeOf envC3.selection ⟨"foo", 5, 8⟩) "foo"
        (computeSubrange envC3.selection ⟨"foo", 5, 8⟩).1
        (computeSubrange envC3.selection ⟨"foo", 5, 8⟩).2] ∧
    finalVisible (run envC3).events false = false ∧
    showInputCount (run envC3).events = 1 :=
  c3_visibility_flag_lifecycle envC3 ⟨"foo", 5, 8⟩ rfl

/-- Claim C6: on every accepted path the bulk-edit transaction is opened
strictly before the rename-resolution service is invoked with the editor's
document, the editor's cursor position and the new name (both read from the
editor state, which is constant across the invocation). -/
theorem c6_bulk_edit_before_resolution (env : Env) (w : Word) (newName : String)
    (hw : env.wordAtPosition = some w) (hi : env.inputOutcome = Sum.inl newName) :
    ∃ i j, i < j ∧
      (run env).events.get? i = some Event.createBulkEdit ∧
      (run env).events.get? j =
        some (Event.callRename env.modelId env.position newName) := by
  have hev := (run_accepted env w newName hw hi).1
  exact ⟨4, 5, by omega, by rw [hev]; rfl, by rw [hev]; rfl⟩

/-- Witness for C6 at a concrete accepted rename. -/
theorem c6_bulk_edit_before_resolution_witness :
    ∃ i j, i < j ∧
      (run envC6).events.get? i = some Event.createBulkEdit ∧
      (run envC6).events.get? j = some (Event.callRename 4 ⟨2, 3⟩ "baz") :=
  c6_bulk_edit_before_resolution envC6 ⟨"qux", 2, 5⟩ "baz" rfl rfl

/-- Claim C10: on every accepted path the flag reset and refocus happen
strictly before the transaction is opened and the service invoked; no
pipeline event (opening, service call, adding edits, commit) occurs while
the flag is `true`; and the accept/cancel commands, whose precondition is
the visibility context key, are disabled whenever the flag is `false` —
hence throughout the in-flight rename operation. -/
theorem c10_flag_false_during_pipeline (env : Env) (w : Word) (newName : String)
    (hw : env.wordAtPosition = some w) (hi : env.inputOutcome = Sum.inl newName) :
    (run env).events.get? 2 = some (Event.setVisible false) ∧
    (run env).events.get? 3 = some Event.focusEditor ∧
    (run env).events.get? 4 = some Event.createBulkEdit ∧
    (∀ e ∈ eventsWhileVisible (run env).events false, isPipelineEvent e = false) ∧
    acceptRenameInputCommand.precondition false = false ∧
    cancelRenameInputCommand.precondition false = false := by
  have hev := (run_accepted env w newName hw hi).1
  refine ⟨by rw [hev]; rfl, by rw [hev]; rfl, by rw [hev]; rfl, ?_, rfl, rfl⟩
  rw [hev, eventsWhileVisible_run_shape env w _
    (fun e he => (accepted_tail_plain env newName e he).1)]
  intro e he
  simp only [List.mem_singleton] at he
  subst he
  rfl

/-- Claim C2: when the rename-resolution service rejects (a truthy
`rejectReason`, which is how the code represents `Rejected(reason)`), the
reason is shown verbatim at Info severity, no edits are added, `finish()` is
never called, and the operation's promise resolves successfully. -/
theorem c2_rejection_shown_informational (env : Env) (w : Word)
    (newName reason : String) (r : IRenameResult)
    (hw : env.wordAtPosition = some w) (hi : env.inputOutcome = Sum.inl newName)
    (hr : env.renameOutcome = Sum.inl r)
    (hreason : r.rejectReason = some reason) (hrej : r.isRejected = true) :
    messagesShown (run env).events = [(Severity.Info, reason)] ∧
    addEditsCalls (run env).events = [] ∧
    finishCalls (run env).events = 0 ∧
    (run env).result = RunResult.resolved := by
  obtain ⟨hev, hres⟩ := run_accepted env w newName hw hi
  have hstep : resolveStep env =
      ([Event.showMessage Severity.Info reason], RunResult.resolved) := by
    simp [resolveStep, hr, hrej, hreason, handleRenameError]
  rw [hev, hres, hstep]
  simp [messagesShown, addEditsCalls, finishCalls, showPhase]

/-- Witness for C2 at a concrete rejected rename. -/
theorem c2_rejection_shown_informational_witness :
    messagesShown (run envC2).events =
      [(Severity.Info, "no other references found")] ∧
    addEditsCalls (run envC2).events = [] ∧
    finishCalls (run envC2).events = 0 ∧
    (run envC2).result = RunResult.resolved :=
  c2_rejection_shown_informational envC2 ⟨"foo", 5, 8⟩ "bar"
    "no other references found" ⟨"foo", [], some "no other references found"⟩
    rfl rfl rfl rfl (by decide)

/-- Claim C7: on the input-session error path the flag is reset and the
editor refocused; nothing is shown; a benign promise-cancellation signal is
swallowed (the promise resolves) while any other error is re-raised. -/
theorem c7_input_error_path (env : Env) (w : Word) (e : JSError)
    (hw : env.wordAtPosition = some w) (hi : env.inputOutcome = Sum.inr e) :
    (run env).events =
      showPhase env w ++ [Event.setVisible false, Event.focusEditor] ∧
    messagesShown (run env).events = [] ∧
    finalVisible (run env).events false = false ∧
    (isPromiseCanceledError e = true → (run env).result = RunResult.resolved) ∧
    (isPromiseCanceledError e = false → (run env).result = RunResult.rejected e) := by
  have hev := run_events_input_error env w e hw hi
  refine ⟨hev, ?_, ?_, ?_, ?_⟩
  · rw [hev]; simp [messagesShown, showPhase]
  · rw [hev]; exact finalVisible_run_shape env w [] (by simp)
  · intro hc; simp [run, hw, hi, hc]
  · intro hc; simp [run, hw, hi, hc]

/-- Witness for C7 at a concrete cancelled input session. -/
theorem c7_input_error_path_witness :
    (run envC7).events =
      showPhase envC7 ⟨"foo", 5, 8⟩ ++ [Event.setVisible false, Event.focusEditor] ∧
    messagesShown (run envC7).events = [] ∧
    finalVisible (run envC7).events false = false ∧
    (isPromiseCanceledError JSError.canceled = true →
      (run envC7).result = RunResult.resolved) ∧
    (isPromiseCanceledError JSError.canceled = false →
      (run envC7).result = RunResult.rejected JSError.canceled) :=
  c7_input_error_path envC7 ⟨"foo", 5, 8⟩ JSError.canceled rfl rfl

/-- Claim C8: when resolution returns edits and the commit succeeds, the
edits are added and committed once, no message is shown, the promise
resolves, and the editor's selection is set exactly to the commit's
resulting selection when there is one and not touched otherwise. -/
theorem c8_commit_success_selection (env : Env) (w : Word) (newName : String)
    (r : IRenameResult) (selOpt : Option Selection)
    (hw : env.wordAtPosition = some w) (hi : env.inputOutcome = Sum.inl newName)
    (hr : env.renameOutcome = Sum.inl r) (hrej : r.isRejected = false)
    (hf : env.finishOutcome = Sum.inl selOpt) :
    (run env).result = RunResult.resolved ∧
    messagesShown (run env).events = [] ∧
    selectionsSet (run env).events = selOpt.toList ∧
    addEditsCalls (run env).events = [r.edits] ∧
    finishCalls (run env).events = 1 := by
  obtain ⟨hev, hres⟩ := run_accepted env w newName hw hi
  have hstep : resolveStep env =
      (Event.addEdits r.edits :: (finishStep env).1, (finishStep env).2) := by
    simp [resolveStep, hr, hrej]
  cases selOpt with
  | some sel =>
    have hfin : finishStep env =
        ([Event.callFinish, Event.setSelection sel], RunResult.resolved) := by
      simp [finishStep, hf]
    rw [hev, hres, hstep, hfin]
    simp [messagesShown, selectionsSet, addEditsCalls, finishCalls, showPhase,
      Option.toList]
  | none =>
    have hfin : finishStep env = ([Event.callFinish], RunResult.resolved) := by
      simp [finishStep, hf]
    rw [hev, hres, hstep, hfin]
    simp [messagesShown, selectionsSet, addEditsCalls, finishCalls, showPhase,
      Option.toList]

/-- Witness for C8 at a concrete successful commit with a resulting
selection. -/
theorem c8_commit_success_selection_witness :
    (run envC8).result = RunResult.resolved ∧
    messagesShown (run envC8).events = [] ∧
    selectionsSet (run envC8).events = (some (Selection.mk 3 2 3 5)).toList ∧
    addEditsCalls (run envC8).events = [[⟨0⟩, ⟨1⟩]] ∧
    finishCalls (run envC8).events = 1 :=
  c8_commit_success_selection envC8 ⟨"foo", 5, 8⟩ "bar" ⟨"foo", [⟨0⟩, ⟨1⟩], none⟩
    (some ⟨3, 2, 3, 5⟩) rfl rfl rfl rfl rfl

/-- Claim C1 counterexample: in a run where the service returns edits and the
commit (`finish()`) fails, the operation's promise is rejected with the raw
commit error but NO message is shown — the error handler at lines 100-107 is
attached to the `_prepareRename` promise only, so the commit failure bypasses
it. The claim's assertion that the Feedback Reporter is invoked at Error
severity with the generic "rename failed" message is therefore false here. -/
theorem c1_commit_failure_counterexample :
    (run envC1).result = RunResult.rejected (JSError.other 7) ∧
    messagesShown (run envC1).events = [] := by
  decide

/-- Claim C1 (amended): when the service returns edits and the commit fails,
the edits were added and `finish()` called, the operation's promise is
rejected with the raw commit error, and no message at all is shown — the
generic "rename failed" error message is produced only by failures of the
resolution step itself, never by a commit failure. -/
theorem c1_commit_failure_rejects_without_message (env : Env) (w : Word)
    (newName : String) (r : IRenameResult) (e : JSError)
    (hw : env.wordAtPosition = some w) (hi : env.inputOutcome = Sum.inl newName)
    (hr : env.renameOutcome = Sum.inl r) (hrej : r.isRejected = false)
    (hf : env.finishOutcome = Sum.inr e) :
    (run env).result = RunResult.rejected e ∧
    messagesShown (run env).events = [] ∧
    addEditsCalls (run env).events = [r.edits] ∧
    finishCalls (run env).events = 1 := by
  obtain ⟨hev, hres⟩ := run_accepted env w newName hw hi
  have hstep : resolveStep env =
      (Event.addEdits r.edits :: (finishStep env).1, (finishStep env).2) := by
    simp [resolveStep, hr, hrej]
  have hfin : finishStep env = ([Event.callFinish], RunResult.rejected e) := by
    simp [finishStep, hf]
  rw [hev, hres, hstep, hfin]
  simp [messagesShown, addEditsCalls, finishCalls, showPhase]

/-- Witness for the amended C1 at a concrete failing commit. -/
theorem c1_commit_failure_rejects_without_message_witness :
    (run envC1).result = RunResult.rejected (JSError.other 7) ∧
    messagesShown (run envC1).events = [] ∧
    addEditsCalls (run envC1).events = [[⟨0⟩]] ∧
    finishCalls (run envC1).events = 1 :=
  c1_commit_failure_rejects_without_message envC1 ⟨"foo", 5, 8⟩ "bar"
    ⟨"foo", [⟨0⟩], none⟩ (JSError.other 7) rfl rfl rfl rfl rfl

/-- Witness for C10 at a concrete accepted rename. -/
theorem c10_flag_false_during_pipeline_witness :
    (run envC10).events.get? 2 = some (Event.setVisible false) ∧
    (run envC10).events.get? 3 = some Event.focusEditor ∧
    (run envC10).events.get? 4 = some Event.createBulkEdit ∧
    (∀ e ∈ eventsWhileVisible (run envC10).events false, isPipelineEvent e = false) ∧
    acceptRenameInputCommand.precondition false = false ∧
    cancelRenameInputCommand.precondition false = false :=
  c10_flag_false_during_pipeline envC10 ⟨"foo", 5, 8⟩ "bar" rfl rfl

end Rename
